import Mathlib

/-!
Shallow embedding of the bdo_tracker program (single Python source file
bdo_tracker.py): the location price table, the append-only session store,
the session-timer state, the reporting aggregations and the numeric
formatting helpers, together with theorems settling the specification
claims about them.

Modelling conventions: Python integers are unbounded, so they are `Int`;
Python float division followed by string formatting is modelled over `ℚ`
with ties-to-even rounding, exact on every quotient the claims touch;
the SQLite queries are modelled by their documented semantics on the date
strings this program writes; fallible Python code (`ValueError`) returns
`Option`.
-/

namespace Bdo

/-- Python `str.strip()` restricted to ASCII whitespace: drop leading
and trailing whitespace characters. -/
def pyStrip (s : String) : String :=
  ⟨((s.data.dropWhile Char.isWhitespace).reverse.dropWhile Char.isWhitespace).reverse⟩

/-- Python `str.split('-')` on the character list: split at every
hyphen, keeping empty fields. -/
def splitDashChars : List Char → List (List Char)
  | [] => [[]]
  | c :: rest =>
    let r := splitDashChars rest
    if c = '-' then [] :: r
    else
      match r with
      | [] => [[c]]
      | g :: gs => (c :: g) :: gs

/-- Python `str.split('-')`. -/
def splitDash (s : String) : List String :=
  (splitDashChars s.data).map (fun g => String.mk g)

/-- Digit run of a Python integer literal after its first digit: decimal
digits, a single underscore allowed between two digits (Python `int`
accepts `1_000`). -/
def pyDigitsGo (acc : Nat) : List Char → Option Nat
  | [] => some acc
  | '_' :: c :: rest =>
      if c.isDigit then pyDigitsGo (acc * 10 + (c.toNat - 48)) rest else none
  | c :: rest =>
      if c.isDigit then pyDigitsGo (acc * 10 + (c.toNat - 48)) rest else none

/-- Digit part of Python `int(str)`: at least one digit, underscores only
between digits. -/
def pyDigits : List Char → Option Nat
  | [] => none
  | c :: rest => if c.isDigit then pyDigitsGo (c.toNat - 48) rest else none

/-- Python `int(str)` on ASCII input: surrounding whitespace stripped, an
optional sign, then a digit run; `none` where Python raises
`ValueError`. -/
def pyInt (s : String) : Option Int :=
  match (pyStrip s).data with
  | '+' :: rest => (pyDigits rest).map (fun n => (n : Int))
  | '-' :: rest => (pyDigits rest).map (fun n => -(n : Int))
  | l => (pyDigits l).map (fun n => (n : Int))

/-- One row of the `sessions` table created by `init_db`; the
auto-increment `id` column is store-assigned and read by no claim, so it
is omitted. -/
structure Session where
  spot : String
  trash_start : Int
  trash_end : Int
  duration : Int
  trash_gained : Int
  earned : Int
  created_at : String
  deriving DecidableEq

/-- The in-memory price table `SPOTS`: a Python dict from location name
to integer price, modelled as its ordered key-value list (keys are
unique, which every insertion below preserves). -/
abbrev Spots := List (String × Int)

/-- Python `SPOTS.get(spot, 0)`. -/
def spotsGet (spots : Spots) (k : String) : Int :=
  ((spots.find? (fun e => e.1 == k)).map (fun e => e.2)).getD 0

/-- Python `name in SPOTS`. -/
def spotsHasKey (spots : Spots) (k : String) : Bool :=
  spots.any (fun e => e.1 == k)

/-- Python `del SPOTS[k]`: removes the entry with key `k`, keeping the
order of the remaining entries. -/
def spotsDel (spots : Spots) (k : String) : Spots :=
  spots.eraseP (fun e => e.1 == k)

/-- Program state the claims range over: the in-memory price table, the
price table as last written to spot.json by `save_spots`, and the rows of
the `sessions` table in insertion order. -/
structure AppState where
  spots : Spots
  spotsFile : Spots
  db : List Session
  deriving DecidableEq

/-- Embedding of `add_session`: `gained = trash_end - trash_start`,
`earned = gained * SPOTS.get(spot, 0)`, one row inserted stamped with
today's date (`today` stands for `datetime.date.today().isoformat()`),
and the pair `(gained, earned)` returned. -/
def add_session (spot : String) (trash_start trash_end duration : Int)
    (today : String) (s : AppState) : (Int × Int) × AppState :=
  let gained := trash_end - trash_start
  let earned := gained * spotsGet s.spots spot
  ((gained, earned),
   { s with db := s.db ++ [⟨spot, trash_start, trash_end, duration, gained, earned, today⟩] })

/-- Embedding of `App.add_spot`: the price must parse as an integer (the
source parses it first), the stripped name must be nonempty and not
already a key; on success the entry is appended and the whole table
saved.  The `Bool` is `true` on success, `false` when a validation error
dialog was shown instead. -/
def add_spot (nameInput priceInput : String) (s : AppState) : AppState × Bool :=
  match pyInt priceInput with
  | none => (s, false)
  | some price =>
    let name := pyStrip nameInput
    if name = "" then (s, false)
    else if spotsHasKey s.spots name then (s, false)
    else
      let spots' := s.spots ++ [(name, price)]
      ({ s with spots := spots', spotsFile := spots' }, true)

/-- Embedding of `App.update_spot`.  `sel` is the listbox selection, an
index into the price table's key list (the listbox mirrors
`SPOTS.keys()`); `none` models an empty selection.  On success the old
key is deleted and the new entry appended (Python re-inserts after
`del`, so the entry moves to the end), and the table is saved. -/
def update_spot (sel : Option Nat) (nameInput priceInput : String)
    (s : AppState) : AppState × Bool :=
  match sel.bind (fun i => s.spots[i]?) with
  | none => (s, false)
  | some entry =>
    let old_name := entry.1
    match pyInt priceInput with
    | none => (s, false)
    | some price =>
      let new_name := pyStrip nameInput
      if new_name = "" then (s, false)
      else if new_name ≠ old_name ∧ spotsHasKey s.spots new_name then (s, false)
      else
        let spots' := spotsDel s.spots old_name ++ [(new_name, price)]
        ({ s with spots := spots', spotsFile := spots' }, true)

/-- Embedding of `App.delete_spot`: deletes the selected key and saves
the table. -/
def delete_spot (sel : Option Nat) (s : AppState) : AppState × Bool :=
  match sel.bind (fun i => s.spots[i]?) with
  | none => (s, false)
  | some entry =>
    let spots' := spotsDel s.spots entry.1
    ({ s with spots := spots', spotsFile := spots' }, true)

/-- One user operation on the price-table editor tab. -/
inductive PriceOp where
  | add (nameInput priceInput : String)
  | update (sel : Option Nat) (nameInput priceInput : String)
  | del (sel : Option Nat)

/-- State after one price-table operation (the error flag is dropped: a
failed operation leaves the state unchanged). -/
def applyPriceOp (s : AppState) : PriceOp → AppState
  | .add n p => (add_spot n p s).1
  | .update sel n p => (update_spot sel n p s).1
  | .del sel => (delete_spot sel s).1

/-- State after a sequence of price-table operations. -/
def applyPriceOps (s : AppState) (ops : List PriceOp) : AppState :=
  ops.foldl applyPriceOp s

/-- Timer fields of `App`: `running`, the `minutes` counter, and
`trash_start` (`none` before any successful start, i.e. Idle; the
attribute does not exist yet in the source). -/
structure TimerState where
  running : Bool
  minutes : Nat
  trash_start : Option Int
  deriving DecidableEq

/-- Embedding of `App.update_timer`: while running, one invocation
increments `minutes` and re-arms itself. -/
def update_timer (t : TimerState) : TimerState :=
  if t.running then { t with minutes := t.minutes + 1 } else t

/-- Embedding of `App.start_timer` on the start-count entry text: on a
parse failure an error dialog is shown and nothing changes; otherwise
the start count is captured, `minutes` reset, `running` set, and
`update_timer` invoked. -/
def start_timer (startInput : String) (t : TimerState) : TimerState :=
  match pyInt startInput with
  | none => t
  | some v => update_timer { t with trash_start := some v, minutes := 0, running := true }

/-- Embedding of `App.pause_timer`. -/
def pause_timer (t : TimerState) : TimerState :=
  if t.running then { t with running := false } else t

/-- Embedding of `App.resume_timer`: the source guards only on
`self.running` and then calls `update_timer`. -/
def resume_timer (t : TimerState) : TimerState :=
  if t.running then t else update_timer { t with running := true }

/-- Round to the nearest integer, ties to even: the rounding Python float
formatting applies. -/
def roundHalfEven (q : ℚ) : ℤ :=
  if q - ⌊q⌋ < 1/2 then ⌊q⌋
  else if 1/2 < q - ⌊q⌋ then ⌊q⌋ + 1
  else if ⌊q⌋ % 2 = 0 then ⌊q⌋ else ⌊q⌋ + 1

/-- Integer form of `roundHalfEven (x / d)` for a positive divisor,
expressed with Euclidean quotient and remainder so that concrete values
compute; the equivalence is proved below. -/
def roundHalfEvenDiv (x d : Int) : Int :=
  if 2 * (x % d) < d then x / d
  else if d < 2 * (x % d) then x / d + 1
  else if (x / d) % 2 = 0 then x / d else x / d + 1

/-- Render a nonnegative number of tenths the way a Python one-decimal
format does: integer part, a dot, one digit. -/
def tenthsRepr (n : ℤ) : String :=
  toString (n / 10) ++ "." ++ toString (n % 10)

/-- Embedding of `format_money`.  The source computes the quotient in
float arithmetic and formats it with no decimals; here the quotient is an
exact rational and the no-decimal formatting rounds ties to even, which
agrees with the source on every input whose quotient is exactly
representable as a float (all inputs the claims use). -/
def format_money (x : Int) : String :=
  if 1000000000 ≤ x then toString (roundHalfEven ((x : ℚ) / 1000000000)) ++ "G"
  else if 1000000 ≤ x then toString (roundHalfEven ((x : ℚ) / 1000000)) ++ "M"
  else if 1000 ≤ x then toString (roundHalfEven ((x : ℚ) / 1000)) ++ "K"
  else toString x

/-- Embedding of `format_hourly` (one decimal place), on the integer
inputs the claims quantify over. -/
def format_hourly (x : Int) : String :=
  if 1000000 ≤ x then tenthsRepr (roundHalfEven ((x : ℚ) * 10 / 1000000)) ++ "M"
  else if 1000 ≤ x then tenthsRepr (roundHalfEven ((x : ℚ) * 10 / 1000)) ++ "K"
  else toString x

/-- ASCII digit-string test. -/
def allDigits (s : String) : Bool := s.data.all Char.isDigit

/-- Numeric value of an ASCII digit string. -/
def digitsVal (s : String) : Nat :=
  s.data.foldl (fun acc c => acc * 10 + (c.toNat - 48)) 0

/-- Gregorian leap-year rule, as Python's `datetime` uses. -/
def isLeap (y : Nat) : Bool := (y % 4 == 0 && y % 100 != 0) || y % 400 == 0

/-- Days in a month, used by date validation. -/
def daysInMonth (y m : Nat) : Nat :=
  if m = 2 then if isLeap y then 29 else 28
  else if m = 4 ∨ m = 6 ∨ m = 9 ∨ m = 11 then 30
  else 31

/-- Python `datetime.datetime.strptime(s, "%Y-%m-%d")` on ASCII input,
returning `(year, month, day)`: exactly three hyphen-separated fields, a
four-digit year 0001-9999, a one- or two-digit month 1-12, a one- or
two-digit day valid for that month; `none` where Python raises
`ValueError`. -/
def strptimeYmd (s : String) : Option (Nat × Nat × Nat) :=
  match splitDash s with
  | [y, m, d] =>
    if allDigits y ∧ y.length = 4 ∧ 1 ≤ digitsVal y
       ∧ allDigits m ∧ 1 ≤ m.length ∧ m.length ≤ 2 ∧ 1 ≤ digitsVal m ∧ digitsVal m ≤ 12
       ∧ allDigits d ∧ 1 ≤ d.length ∧ d.length ≤ 2 ∧ 1 ≤ digitsVal d
       ∧ digitsVal d ≤ daysInMonth (digitsVal y) (digitsVal m)
    then some (digitsVal y, digitsVal m, digitsVal d) else none
  | _ => none

/-- The month token `get_available_months` builds from a parsed date:
the year (unpadded) and the zero-padded month. -/
def monthToken (y m : Nat) : String :=
  toString y ++ "-" ++ (if m < 10 then "0" ++ toString m else toString m)

/-- Boolean string order used to model both SQL `ORDER BY created_at`
and Python `sorted` on strings (both lexicographic on code points). -/
def strLe (a b : String) : Bool := decide (a ≤ b)

/-- Embedding of `get_available_months`: the month tokens of every
parseable stored date, de-duplicated (the source builds a `set`), sorted
descending (`sorted(..., reverse=True)`); unparseable date strings are
skipped by the `except ValueError: continue`. -/
def get_available_months (db : List Session) : List String :=
  (((db.map (fun r => r.created_at)).filterMap
      (fun ds => (strptimeYmd ds).map (fun t => monthToken t.1 t.2.1))).dedup).mergeSort
    (fun a b => strLe b a)

/-- SQLite `strftime('%Y-%m', created_at)` on the date strings this
program stores (ISO `YYYY-MM-DD` from `date.today().isoformat()`):
`some` of the year-month prefix for a well-formed calendar date in that
exact shape, `none` (SQL NULL, which matches no filter) otherwise.
SQLite's rolling normalisation of out-of-range fields is not modelled;
no row this program writes has one. -/
def sqliteMonthKey (s : String) : Option String :=
  match splitDash s with
  | [y, m, d] =>
    if allDigits y ∧ y.length = 4
       ∧ allDigits m ∧ m.length = 2 ∧ 1 ≤ digitsVal m ∧ digitsVal m ≤ 12
       ∧ allDigits d ∧ d.length = 2 ∧ 1 ≤ digitsVal d
       ∧ digitsVal d ≤ daysInMonth (digitsVal y) (digitsVal m)
    then some (y ++ "-" ++ m) else none
  | _ => none

/-- Shared shape of the two reporting queries (`SELECT created_at,
SUM(duration), SUM(earned) FROM sessions [WHERE filter] GROUP BY
created_at ORDER BY created_at`): the rows passing the filter are grouped
by their `created_at` string, listed in ascending string order with the
two sums. -/
def dailyAgg (pred : String → Bool) (db : List Session) : List (String × Int × Int) :=
  let rows := db.filter (fun r => pred r.created_at)
  let dates := ((rows.map (fun r => r.created_at)).dedup).mergeSort strLe
  dates.map (fun d =>
    (d, (((rows.filter (fun r => r.created_at == d)).map (fun r => r.duration)).sum,
         ((rows.filter (fun r => r.created_at == d)).map (fun r => r.earned)).sum)))

/-- The combobox token for the whole-history view (the source's UI
literal, its localized spelling of "all"). -/
def allToken : String := "全体"

/-- Embedding of `App.get_daily_data`.  For a specific month the source
first runs `year, month = month_filter.split('-')` and discards the
results; that unpacking raises `ValueError` unless the filter splits into
exactly two parts, modelled as `none`. -/
def get_daily_data (month_filter : String) (db : List Session) :
    Option (List (String × Int × Int)) :=
  if month_filter = allToken then some (dailyAgg (fun _ => true) db)
  else if (splitDash month_filter).length = 2 then
    some (dailyAgg (fun ds => sqliteMonthKey ds == some month_filter) db)
  else none

/-- Embedding of `App.get_hourly_data`: the identical pair of queries,
without the unused `split`. -/
def get_hourly_data (month_filter : String) (db : List Session) :
    List (String × Int × Int) :=
  if month_filter = allToken then dailyAgg (fun _ => true) db
  else dailyAgg (fun ds => sqliteMonthKey ds == some month_filter) db

/-- The guarded hourly-rate expression of `App.plot_hourly`:
`r[2]/(r[1]/60) if r[1]>0 else 0`, exact rational in place of Python's
float division. -/
def hourly_rate (duration earned : Int) : ℚ :=
  if 0 < duration then (earned : ℚ) / ((duration : ℚ) / 60) else 0

/-- The date/hourly-rate pairs `App.plot_hourly` derives from
`get_hourly_data` (both the plotted series and the table rows). -/
def plot_hourly (month_filter : String) (db : List Session) : List (String × ℚ) :=
  (get_hourly_data month_filter db).map (fun r => (r.1, hourly_rate r.2.1 r.2.2))

/-- Sum of `duration` over the stored rows of one calendar date. -/
def dateDurationSum (db : List Session) (d : String) : Int :=
  ((db.filter (fun r => r.created_at == d)).map (fun r => r.duration)).sum

/-- Sum of `earned` over the stored rows of one calendar date. -/
def dateEarnedSum (db : List Session) (d : String) : Int :=
  ((db.filter (fun r => r.created_at == d)).map (fun r => r.earned)).sum

/-- A sample store used to instantiate hypotheses of the aggregation
theorems at concrete inputs. -/
def sampleDb : List Session :=
  [⟨"a", 0, 50, 30, 50, 100, "2024-05-03"⟩, ⟨"b", 0, 10, 10, 10, 7, "2024-04-01"⟩]

/-- The boolean string order is transitive. -/
theorem strLe_trans (a b c : String) (h1 : strLe a b = true) (h2 : strLe b c = true) :
    strLe a c = true := by
  simp only [strLe, decide_eq_true_eq] at h1 h2 ⊢
  exact le_trans h1 h2

/-- The boolean string order is total. -/
theorem strLe_total (a b : String) : (strLe a b || strLe b a) = true := by
  simp only [strLe, Bool.or_eq_true, decide_eq_true_eq]
  exact le_total a b

/-- Filtering by a predicate that depends only on the date, then
restricting to one date that satisfies it, is restricting to that date. -/
theorem filter_date_of_pred (pred : String → Bool) (db : List Session) (d : String)
    (h : pred d = true) :
    (db.filter (fun r => pred r.created_at)).filter (fun r => r.created_at == d)
      = db.filter (fun r => r.created_at == d) := by
  induction db with
  | nil => rfl
  | cons r rest ih =>
    by_cases hrd : r.created_at = d
    · have hp : pred r.created_at = true := by rw [hrd]; exact h
      simp [List.filter_cons, hrd, hp, h, ih]
    · by_cases hp : pred r.created_at = true
      · simp [List.filter_cons, hrd, hp, ih]
      · simp [List.filter_cons, hrd, hp, ih]

/-- Specification of the grouped query shape shared by the two reporting
views: the first components are exactly the dates of the rows the filter
keeps, without duplicates, in ascending string order, and each row
carries the per-date sums. -/
theorem dailyAgg_spec (pred : String → Bool) (db : List Session) :
    (∀ d : String, d ∈ (dailyAgg pred db).map Prod.fst ↔
        (∃ r ∈ db, r.created_at = d) ∧ pred d = true) ∧
    ((dailyAgg pred db).map Prod.fst).Nodup ∧
    List.Pairwise (fun a b : String => a ≤ b) ((dailyAgg pred db).map Prod.fst) ∧
    ∀ x ∈ dailyAgg pred db, x.2.1 = dateDurationSum db x.1 ∧ x.2.2 = dateEarnedSum db x.1 := by
  have hfst : (dailyAgg pred db).map Prod.fst
      = (((db.filter (fun r => pred r.created_at)).map
            (fun r => r.created_at)).dedup).mergeSort strLe := by
    simp [dailyAgg, Function.comp_def]
  refine ⟨?_, ?_, ?_, ?_⟩
  · intro d
    rw [hfst, List.mem_mergeSort, List.mem_dedup, List.mem_map]
    constructor
    · rintro ⟨r, hr, rfl⟩
      rw [List.mem_filter] at hr
      exact ⟨⟨r, hr.1, rfl⟩, hr.2⟩
    · rintro ⟨⟨r, hr, rfl⟩, hp⟩
      exact ⟨r, List.mem_filter.mpr ⟨hr, hp⟩, rfl⟩
  · rw [hfst]
    exact ((List.mergeSort_perm _ _).nodup_iff).mpr (List.nodup_dedup _)
  · rw [hfst]
    have hs := @List.sorted_mergeSort String strLe strLe_trans strLe_total
      (((db.filter (fun r => pred r.created_at)).map (fun r => r.created_at)).dedup)
    exact hs.imp (fun h => of_decide_eq_true h)
  · intro x hx
    unfold dailyAgg at hx
    rw [List.mem_map] at hx
    obtain ⟨d, hd, rfl⟩ := hx
    have hpredd : pred d = true := by
      rw [List.mem_mergeSort, List.mem_dedup, List.mem_map] at hd
      obtain ⟨r, hr, rfl⟩ := hd
      exact (List.mem_filter.mp hr).2
    constructor
    · dsimp only
      rw [filter_date_of_pred pred db d hpredd]
      rfl
    · dsimp only
      rw [filter_date_of_pred pred db d hpredd]
      rfl

/-- A single price-table operation never touches the session store. -/
theorem applyPriceOp_db (s : AppState) (op : PriceOp) : (applyPriceOp s op).db = s.db := by
  cases op with
  | add n p =>
    show ((add_spot n p s).1).db = s.db
    unfold add_spot
    cases hP : pyInt p with
    | none => rfl
    | some price =>
      dsimp only
      split_ifs <;> rfl
  | update sel n p =>
    show ((update_spot sel n p s).1).db = s.db
    unfold update_spot
    cases hE : sel.bind (fun i => s.spots[i]?) with
    | none => rfl
    | some entry =>
      dsimp only
      cases hP : pyInt p with
      | none => rfl
      | some price =>
        dsimp only
        split_ifs <;> rfl
  | del sel =>
    show ((delete_spot sel s).1).db = s.db
    unfold delete_spot
    cases hE : sel.bind (fun i => s.spots[i]?) with
    | none => rfl
    | some entry => rfl

/-- A sequence of price-table operations never touches the session
store. -/
theorem applyPriceOps_db (ops : List PriceOp) : ∀ s : AppState,
    (applyPriceOps s ops).db = s.db := by
  induction ops with
  | nil => intro s; rfl
  | cons op rest ih =>
    intro s
    show (applyPriceOps (applyPriceOp s op) rest).db = s.db
    rw [ih, applyPriceOp_db]

/-- C1: `add_session(location, start, end, minutes)` computes
`gained = end - start` with no validation (negative when end < start),
`earned = gained` times the price-table entry (0 when the location is
absent), appends exactly one row stamped with today's date, leaves the
price table untouched, and returns the pair `(gained, earned)`. -/
theorem add_session_spec :
    ∀ (spot : String) (ts te dur : Int) (today : String) (s : AppState),
    (add_session spot ts te dur today s).1 = (te - ts, (te - ts) * spotsGet s.spots spot) ∧
    (add_session spot ts te dur today s).2.db
      = s.db ++ [⟨spot, ts, te, dur, te - ts, (te - ts) * spotsGet s.spots spot, today⟩] ∧
    (add_session spot ts te dur today s).2.spots = s.spots ∧
    (add_session spot ts te dur today s).2.spotsFile = s.spotsFile ∧
    (spotsHasKey s.spots spot = false → (add_session spot ts te dur today s).1.2 = 0) ∧
    (te < ts → (add_session spot ts te dur today s).1.1 < 0) := by
  intro spot ts te dur today s
  refine ⟨rfl, rfl, rfl, rfl, ?_, ?_⟩
  · intro habs
    show (te - ts) * spotsGet s.spots spot = 0
    have hfind : s.spots.find? (fun e => e.1 == spot) = none := by
      rw [List.find?_eq_none]
      intro e he
      have := List.any_eq_false.mp habs e he
      simpa using this
    unfold spotsGet
    rw [hfind]
    simp
  · intro hlt
    show te - ts < 0
    omega

/-- C1 witness: the spec scenario (price 1200, counts 100 to 150, 5
minutes) yields `(50, 60000)`; a session at an absent location earns 0;
an end count below the start count yields a negative gain. -/
theorem add_session_spec_witness :
    (add_session ("Sherekhan") 100 150 5 ("2024-05-03")
        ⟨[("Sherekhan", 1200)], [("Sherekhan", 1200)], []⟩).1 = (50, 60000) ∧
    (add_session ("z") 100 90 5 ("2024-05-03") ⟨[], [], []⟩).1.1 < 0 ∧
    (add_session ("z") 100 90 5 ("2024-05-03") ⟨[], [], []⟩).1.2 = 0 :=
  ⟨(add_session_spec ("Sherekhan") 100 150 5 ("2024-05-03")
      ⟨[("Sherekhan", 1200)], [("Sherekhan", 1200)], []⟩).1.trans (by decide),
   (add_session_spec ("z") 100 90 5 ("2024-05-03") ⟨[], [], []⟩).2.2.2.2.2 (by decide),
   (add_session_spec ("z") 100 90 5 ("2024-05-03") ⟨[], [], []⟩).2.2.2.2.1 (by decide)⟩

/-- C2: every sequence of price-table operations (add, rename/update,
delete) leaves all previously stored session rows unchanged, in
particular every stored `earned` value and `location` field. -/
theorem sessions_frame_under_price_ops :
    ∀ (ops : List PriceOp) (s : AppState),
    (applyPriceOps s ops).db = s.db ∧
    (applyPriceOps s ops).db.map (fun r => r.earned) = s.db.map (fun r => r.earned) ∧
    (applyPriceOps s ops).db.map (fun r => r.spot) = s.db.map (fun r => r.spot) := by
  intro ops s
  have h := applyPriceOps_db ops s
  exact ⟨h, by rw [h], by rw [h]⟩

/-- C3: `get_daily_data` groups stored sessions by calendar date with
summed duration and earnings, ordered by date ascending; under the
whole-history token every stored date appears, and under a specific
year-month token exactly the stored dates with that month key appear. -/
theorem daily_aggregate_spec :
    (∀ db : List Session, ∃ L,
      get_daily_data allToken db = some L ∧
      (∀ d : String, d ∈ L.map Prod.fst ↔ ∃ r ∈ db, r.created_at = d) ∧
      (L.map Prod.fst).Nodup ∧
      List.Pairwise (fun a b : String => a ≤ b) (L.map Prod.fst) ∧
      (∀ x ∈ L, x.2.1 = dateDurationSum db x.1 ∧ x.2.2 = dateEarnedSum db x.1)) ∧
    (∀ (db : List Session) (tok : String),
      (splitDash tok).length = 2 → tok ≠ allToken → ∃ L,
      get_daily_data tok db = some L ∧
      (∀ d : String, d ∈ L.map Prod.fst ↔
          (∃ r ∈ db, r.created_at = d) ∧ sqliteMonthKey d = some tok) ∧
      (L.map Prod.fst).Nodup ∧
      List.Pairwise (fun a b : String => a ≤ b) (L.map Prod.fst) ∧
      (∀ x ∈ L, x.2.1 = dateDurationSum db x.1 ∧ x.2.2 = dateEarnedSum db x.1)) := by
  constructor
  · intro db
    refine ⟨dailyAgg (fun _ => true) db, ?_, ?_, ?_, ?_, ?_⟩
    · simp [get_daily_data]
    · intro d
      rw [(dailyAgg_spec (fun _ => true) db).1 d]
      simp
    · exact (dailyAgg_spec (fun _ => true) db).2.1
    · exact (dailyAgg_spec (fun _ => true) db).2.2.1
    · exact (dailyAgg_spec (fun _ => true) db).2.2.2
  · intro db tok hsplit hne
    refine ⟨dailyAgg (fun ds => sqliteMonthKey ds == some tok) db, ?_, ?_, ?_, ?_, ?_⟩
    · simp only [get_daily_data, if_neg hne, if_pos hsplit]
    · intro d
      rw [(dailyAgg_spec (fun ds => sqliteMonthKey ds == some tok) db).1 d]
      simp
    · exact (dailyAgg_spec (fun ds => sqliteMonthKey ds == some tok) db).2.1
    · exact (dailyAgg_spec (fun ds => sqliteMonthKey ds == some tok) db).2.2.1
    · exact (dailyAgg_spec (fun ds => sqliteMonthKey ds == some tok) db).2.2.2

/-- C3 witness: the month-filtered half of the aggregation theorem
instantiated at the token "2024-05" and a concrete two-row store. -/
theorem daily_aggregate_spec_witness :
    ((splitDash ("2024-05")).length = 2) ∧
    ∃ L, get_daily_data ("2024-05") sampleDb = some L ∧
      (∀ d : String, d ∈ L.map Prod.fst ↔
          (∃ r ∈ sampleDb, r.created_at = d) ∧ sqliteMonthKey d = some ("2024-05")) ∧
      (L.map Prod.fst).Nodup ∧
      List.Pairwise (fun a b : String => a ≤ b) (L.map Prod.fst) ∧
      (∀ x ∈ L, x.2.1 = dateDurationSum sampleDb x.1 ∧ x.2.2 = dateEarnedSum sampleDb x.1) :=
  ⟨by decide, daily_aggregate_spec.2 sampleDb ("2024-05") (by decide) (by decide)⟩

/-- C5: `get_available_months` returns the month tokens of the parseable
stored dates, with no duplicates, sorted descending; date strings that
fail to parse are skipped. -/
theorem available_months_spec :
    ∀ db : List Session,
    (get_available_months db).Nodup ∧
    List.Pairwise (fun a b : String => b ≤ a) (get_available_months db) ∧
    (∀ t : String, t ∈ get_available_months db ↔
      ∃ r ∈ db, ∃ y m d : Nat, strptimeYmd r.created_at = some (y, m, d) ∧ t = monthToken y m) := by
  intro db
  refine ⟨?_, ?_, ?_⟩
  · exact ((List.mergeSort_perm _ _).nodup_iff).mpr (List.nodup_dedup _)
  · have hs := @List.sorted_mergeSort String (fun a b => strLe b a)
      (fun a b c h1 h2 => strLe_trans c b a h2 h1)
      (fun a b => strLe_total b a)
      (((db.map (fun r => r.created_at)).filterMap
          (fun ds => (strptimeYmd ds).map (fun t => monthToken t.1 t.2.1))).dedup)
    exact hs.imp (fun h => of_decide_eq_true h)
  · intro t
    rw [get_available_months, List.mem_mergeSort, List.mem_dedup, List.mem_filterMap]
    constructor
    · rintro ⟨ds, hds, hmap⟩
      rw [List.mem_map] at hds
      obtain ⟨r, hr, rfl⟩ := hds
      rw [Option.map_eq_some'] at hmap
      obtain ⟨⟨y, m, dd⟩, hparse, hmk⟩ := hmap
      exact ⟨r, hr, y, m, dd, hparse, hmk.symm⟩
    · rintro ⟨r, hr, y, m, dd, hparse, rfl⟩
      refine ⟨r.created_at, List.mem_map.mpr ⟨r, hr, rfl⟩, ?_⟩
      rw [hparse]
      rfl

/-- C6: adding a location fails exactly when the price does not parse as
an integer, the stripped name is empty, or the name is already present;
every failure leaves the whole state (table in memory and on disk)
unchanged, and when all three checks pass the entry is appended and the
table persisted. -/
theorem add_spot_spec :
    ∀ (n p : String) (s : AppState),
    ((add_spot n p s).2 = false ↔
        pyInt p = none ∨ pyStrip n = "" ∨ spotsHasKey s.spots (pyStrip n) = true) ∧
    ((add_spot n p s).2 = false → (add_spot n p s).1 = s) ∧
    (∀ price : Int, pyInt p = some price → pyStrip n ≠ "" → spotsHasKey s.spots (pyStrip n) = false →
      (add_spot n p s).1.spots = s.spots ++ [(pyStrip n, price)] ∧
      (add_spot n p s).1.spotsFile = s.spots ++ [(pyStrip n, price)] ∧
      (add_spot n p s).1.db = s.db ∧
      (add_spot n p s).2 = true) := by
  intro n p s
  cases hP : pyInt p with
  | none =>
    refine ⟨by simp [add_spot, hP], fun _ => by simp [add_spot, hP], ?_⟩
    intro price hprice

    cases hprice
  | some price0 =>
    by_cases hname : pyStrip n = ""
    · refine ⟨by simp [add_spot, hP, hname], fun _ => by simp [add_spot, hP, hname], ?_⟩
      intro price _ hne
      exact absurd hname hne
    · by_cases hkey : spotsHasKey s.spots (pyStrip n) = true
      · refine ⟨by simp [add_spot, hP, hname, hkey],
          fun _ => by simp [add_spot, hP, hname, hkey], ?_⟩
        intro price _ _ hkf
        rw [hkey] at hkf
        cases hkf
      · refine ⟨by simp [add_spot, hP, hname, hkey], ?_, ?_⟩
        · intro hflag
          have : (add_spot n p s).2 = true := by
            simp [add_spot, hP, hname, hkey]
          rw [this] at hflag
          cases hflag
        · intro price hprice _ _

          cases hprice
          refine ⟨?_, ?_, ?_, ?_⟩ <;>
            simp [add_spot, hP, hname, hkey]

/-- C6 witness: adding "Sherekhan" at price "1200" to an empty table
succeeds and persists; re-adding an existing name fails and leaves the
state unchanged. -/
theorem add_spot_spec_witness :
    (add_spot ("Sherekhan") ("1200") ⟨[], [], []⟩).1.spots = [("Sherekhan", 1200)] ∧
    (add_spot ("Sherekhan") ("1200") ⟨[], [], []⟩).1.spotsFile = [("Sherekhan", 1200)] ∧
    (add_spot ("Sherekhan") ("1200") ⟨[], [], []⟩).2 = true ∧
    (add_spot ("a") ("5") ⟨[("a", 3)], [("a", 3)], []⟩).1
      = ⟨[("a", 3)], [("a", 3)], []⟩ :=
  ⟨by
    have h := (add_spot_spec ("Sherekhan") ("1200") ⟨[], [], []⟩).2.2 1200
      (by decide) (by decide) (by decide)
    exact h.1.trans (by decide),
   by
    have h := (add_spot_spec ("Sherekhan") ("1200") ⟨[], [], []⟩).2.2 1200
      (by decide) (by decide) (by decide)
    exact h.2.1.trans (by decide),
   by
    have h := (add_spot_spec ("Sherekhan") ("1200") ⟨[], [], []⟩).2.2 1200
      (by decide) (by decide) (by decide)
    exact h.2.2.2,
   (add_spot_spec ("a") ("5") ⟨[("a", 3)], [("a", 3)], []⟩).2.1 (by decide)⟩

/-- C7 counterexample: in the Idle state (never started: no start count,
not running, zero minutes) `resume_timer` is not a no-op — it flips the
state to running and begins counting. -/
theorem resume_timer_claim_counterexample :
    resume_timer ⟨false, 0, none⟩ ≠ ⟨false, 0, none⟩ ∧
    (resume_timer ⟨false, 0, none⟩).running = true := by
  constructor
  · decide
  · decide

/-- C7 amended: `resume_timer` is a no-op exactly when the timer is
already running; whenever it is not running — from Paused, but equally
from Idle before any start — it transitions to running and immediately
increments the minute counter, leaving the start count unchanged. -/
theorem resume_timer_spec :
    ∀ t : TimerState,
    (t.running = true → resume_timer t = t) ∧
    (t.running = false →
      (resume_timer t).running = true ∧
      (resume_timer t).minutes = t.minutes + 1 ∧
      (resume_timer t).trash_start = t.trash_start) := by
  intro t
  constructor
  · intro h
    unfold resume_timer
    rw [if_pos h]
  · intro h
    unfold resume_timer update_timer
    rw [if_neg (by rw [h]; exact Bool.false_ne_true)]
    simp

/-- C7 witness: the amended theorem applied to a Paused state (resumes
and ticks) and to a Running state (no-op). -/
theorem resume_timer_spec_witness :
    (resume_timer ⟨false, 7, some 100⟩).running = true ∧
    (resume_timer ⟨false, 7, some 100⟩).minutes = 8 ∧
    resume_timer ⟨true, 3, some 5⟩ = ⟨true, 3, some 5⟩ :=
  ⟨((resume_timer_spec ⟨false, 7, some 100⟩).2 rfl).1,
   ((resume_timer_spec ⟨false, 7, some 100⟩).2 rfl).2.1,
   (resume_timer_spec ⟨true, 3, some 5⟩).1 rfl⟩

/-- Floor of an exact integer quotient over the rationals is Euclidean
integer division. -/
theorem floor_intCast_div (x d : Int) (hd : 0 < d) : ⌊(x : ℚ) / (d : ℚ)⌋ = x / d := by
  obtain ⟨n, rfl⟩ : ∃ n : ℕ, (n : ℤ) = d := ⟨d.toNat, Int.toNat_of_nonneg (le_of_lt hd)⟩
  rw [show (((n : ℤ)) : ℚ) = ((n : ℕ) : ℚ) by push_cast; ring]
  exact Rat.floor_intCast_div_natCast x n

/-- The rational ties-to-even rounding of an integer quotient agrees
with its integer-arithmetic form. -/
theorem roundHalfEven_intCast_div (x d : Int) (hd : 0 < d) :
    roundHalfEven ((x : ℚ) / (d : ℚ)) = roundHalfEvenDiv x d := by
  have hdQ : (0 : ℚ) < (d : ℚ) := by exact_mod_cast hd
  have hfloor : ⌊(x : ℚ) / (d : ℚ)⌋ = x / d := floor_intCast_div x d hd
  have hmod : (x : ℚ) / (d : ℚ) - ((x / d : ℤ) : ℚ) = ((x % d : ℤ) : ℚ) / (d : ℚ) := by
    have hx : (d : ℚ) * ((x / d : ℤ) : ℚ) + ((x % d : ℤ) : ℚ) = (x : ℚ) := by
      exact_mod_cast Int.ediv_add_emod x d
    field_simp
    linarith
  have hiff1 : (((x % d : ℤ) : ℚ) / (d : ℚ) < 1 / 2) ↔ (2 * (x % d) < d) := by
    rw [div_lt_div_iff₀ hdQ (by norm_num : (0 : ℚ) < 2), one_mul]
    constructor
    · intro h
      have h3 : (x % d) * 2 < d := by exact_mod_cast h
      omega
    · intro h
      have h3 : (x % d) * 2 < d := by omega
      exact_mod_cast h3
  have hiff2 : (1 / 2 < ((x % d : ℤ) : ℚ) / (d : ℚ)) ↔ (d < 2 * (x % d)) := by
    rw [div_lt_div_iff₀ (by norm_num : (0 : ℚ) < 2) hdQ, one_mul]
    constructor
    · intro h
      have h3 : d < (x % d) * 2 := by exact_mod_cast h
      omega
    · intro h
      have h3 : d < (x % d) * 2 := by omega
      exact_mod_cast h3
  unfold roundHalfEven roundHalfEvenDiv
  rw [hfloor, hmod]
  simp only [hiff1, hiff2]

/-- C4 counterexample: Python float formatting rounds ties to even, so
2500000 renders as "2M", not "3M". -/
theorem format_money_claim_counterexample :
    format_money 2500000 = "2M" ∧ format_money 2500000 ≠ "3M" := by
  have h : format_money 2500000 = "2M" := by
    unfold format_money
    rw [if_neg (by norm_num), if_pos (by norm_num)]
    rw [show ((1000000 : ℚ)) = (((1000000 : ℤ)) : ℚ) by norm_num]
    rw [roundHalfEven_intCast_div 2500000 1000000 (by norm_num)]
    decide
  refine ⟨h, ?_⟩
  rw [h]
  decide

/-- C4 amended: `format_money` renders with no decimal places using the
thresholds 1e9 to G, 1e6 to M, 1e3 to K, else the plain integer string,
rounding ties to even; in particular 999 to "999", 1500 to "2K",
2500000 to "2M" (not "3M") and 1000000000 to "1G". -/
theorem format_money_spec :
    format_money 999 = "999" ∧
    format_money 1500 = "2K" ∧
    format_money 2500000 = "2M" ∧
    format_money 1000000000 = "1G" ∧
    (∀ x : Int, x < 1000 → format_money x = toString x) ∧
    (∀ x : Int, 1000 ≤ x → x < 1000000 →
      format_money x = toString (roundHalfEven ((x : ℚ) / 1000)) ++ "K") ∧
    (∀ x : Int, 1000000 ≤ x → x < 1000000000 →
      format_money x = toString (roundHalfEven ((x : ℚ) / 1000000)) ++ "M") ∧
    (∀ x : Int, 1000000000 ≤ x →
      format_money x = toString (roundHalfEven ((x : ℚ) / 1000000000)) ++ "G") := by
  have hlow : ∀ x : Int, x < 1000 → format_money x = toString x := by
    intro x hx
    unfold format_money
    rw [if_neg (by omega), if_neg (by omega), if_neg (by omega)]
  have hK : ∀ x : Int, 1000 ≤ x → x < 1000000 →
      format_money x = toString (roundHalfEven ((x : ℚ) / 1000)) ++ "K" := by
    intro x h1 h2
    unfold format_money
    rw [if_neg (by omega), if_neg (by omega), if_pos (by omega)]
  have hM : ∀ x : Int, 1000000 ≤ x → x < 1000000000 →
      format_money x = toString (roundHalfEven ((x : ℚ) / 1000000)) ++ "M" := by
    intro x h1 h2
    unfold format_money
    rw [if_neg (by omega), if_pos (by omega)]
  have hG : ∀ x : Int, 1000000000 ≤ x →
      format_money x = toString (roundHalfEven ((x : ℚ) / 1000000000)) ++ "G" := by
    intro x h1
    unfold format_money
    rw [if_pos (by omega)]
  refine ⟨?_, ?_, ?_, ?_, hlow, hK, hM, hG⟩
  · rw [hlow 999 (by norm_num)]
    decide
  · rw [hK 1500 (by norm_num) (by norm_num),
      show ((1000 : ℚ)) = (((1000 : ℤ)) : ℚ) by norm_num,
      roundHalfEven_intCast_div 1500 1000 (by norm_num)]
    decide
  · rw [hM 2500000 (by norm_num) (by norm_num),
      show ((1000000 : ℚ)) = (((1000000 : ℤ)) : ℚ) by norm_num,
      roundHalfEven_intCast_div 2500000 1000000 (by norm_num)]
    decide
  · rw [hG 1000000000 (by norm_num),
      show ((1000000000 : ℚ)) = (((1000000000 : ℤ)) : ℚ) by norm_num,
      roundHalfEven_intCast_div 1000000000 1000000000 (by norm_num)]
    decide

/-- C4 witness: the sub-1000 band of the amended theorem applied at
500. -/
theorem format_money_spec_witness : format_money 500 = "500" := by
  rw [format_money_spec.2.2.2.2.1 500 (by norm_num)]
  decide

/-- C8: the hourly-rate view is the pure map of the guarded expression
over the daily aggregate; the rate equals earned divided by the duration
in hours when the duration is positive (the divisor being nonzero
there), and 0 when the duration is 0. -/
theorem hourly_view_spec :
    (∀ (f : String) (db : List Session),
      plot_hourly f db
        = (get_hourly_data f db).map (fun r => (r.1, hourly_rate r.2.1 r.2.2))) ∧
    (∀ duration earned : Int,
      (0 < duration →
        hourly_rate duration earned = 60 * (earned : ℚ) / (duration : ℚ) ∧
        ((duration : ℚ) / 60) ≠ 0) ∧
      (duration = 0 → hourly_rate duration earned = 0)) := by
  constructor
  · intro f db
    rfl
  · intro dur earned
    constructor
    · intro hpos
      have hd0 : (dur : ℚ) ≠ 0 := Int.cast_ne_zero.mpr (by omega)
      constructor
      · unfold hourly_rate
        rw [if_pos hpos, div_div_eq_mul_div, mul_comm]
      · intro hcontra
        rcases div_eq_zero_iff.mp hcontra with h | h
        · exact hd0 h
        · norm_num at h
    · intro h0
      unfold hourly_rate
      rw [if_neg (by omega)]

/-- C8 witness: 600 earned over 30 minutes is an hourly rate of 1200. -/
theorem hourly_view_spec_witness : hourly_rate 30 600 = 1200 := by
  rw [((hourly_view_spec.2 30 600).1 (by norm_num)).1]
  norm_num

/-- C9 counterexample: on a filter that does not split into exactly two
hyphen-separated parts, `get_daily_data` raises (the unused
`month_filter.split('-')` unpacking) while `get_hourly_data` returns
normally, so the two are not the same function of the store. -/
theorem month_filter_equiv_counterexample :
    get_daily_data ("x") [] ≠ some (get_hourly_data ("x") []) := by
  have h1 : get_daily_data ("x") [] = none := by
    unfold get_daily_data
    rw [if_neg (by decide), if_neg (by decide)]
  rw [h1]
  intro h
  cases h

/-- C9 amended: on every filter that is the whole-history token or
splits into exactly two hyphen-separated parts (every token the UI
offers), the two data-fetching functions return exactly the same
rows. -/
theorem month_filter_equiv :
    ∀ (f : String) (db : List Session),
    (f = allToken ∨ (splitDash f).length = 2) →
    get_daily_data f db = some (get_hourly_data f db) := by
  intro f db h
  by_cases hA : f = allToken
  · unfold get_daily_data get_hourly_data
    rw [if_pos hA, if_pos hA]
  · rcases h with h | h
    · exact absurd h hA
    · unfold get_daily_data get_hourly_data
      rw [if_neg hA, if_neg hA, if_pos h]

/-- C9 witness: the amended equivalence applied to the token "2024-05"
and a concrete store. -/
theorem month_filter_equiv_witness :
    get_daily_data ("2024-05") sampleDb = some (get_hourly_data ("2024-05") sampleDb) :=
  month_filter_equiv ("2024-05") sampleDb (Or.inr (by decide))

/-- C10: both formatters are total on the integers, and on every
negative input all magnitude thresholds fail, so the result is the plain
integer string with no suffix; in particular -2500000 renders as
"-2500000", not "-3M". -/
theorem negative_format_spec :
    (∀ x : Int, x < 0 → format_money x = toString x ∧ format_hourly x = toString x) ∧
    format_money (-2500000) = "-2500000" ∧
    format_money (-2500000) ≠ "-3M" := by
  have hmain : ∀ x : Int, x < 0 →
      format_money x = toString x ∧ format_hourly x = toString x := by
    intro x hx
    constructor
    · unfold format_money
      rw [if_neg (by omega), if_neg (by omega), if_neg (by omega)]
    · unfold format_hourly
      rw [if_neg (by omega), if_neg (by omega)]
  refine ⟨hmain, ?_, ?_⟩
  · rw [(hmain (-2500000) (by norm_num)).1]
    decide
  · rw [(hmain (-2500000) (by norm_num)).1]
    decide

/-- C10 witness: the theorem applied at -7. -/
theorem negative_format_spec_witness :
    format_money (-7) = "-7" ∧ format_hourly (-7) = "-7" := by
  constructor
  · rw [(negative_format_spec.1 (-7) (by norm_num)).1]
    decide
  · rw [(negative_format_spec.1 (-7) (by norm_num)).2]
    decide

end Bdo
